import Mathlib

/-!
Verification of the `causal` telemetry agent (Rust) against its
natural-language specification.

Shallow embedding conventions:
* machine integers are `Nat` with explicit `% 2^w` where the Rust code
  casts or wraps (`as u32`, `as u8`, wrapping atomics);
* byte buffers (`Vec<u8>`) are `List Nat`, each element a byte value;
* `HashMap` values are association lists in iteration order, with
  `insert` replacing an existing key in place or appending;
* fallible code (`io::Result`, `anyhow::Result`) returns `Option`;
* Rust strings are their UTF-8 byte lists.
-/

/-! ## Little-endian byte encoding helpers

Models `x.to_le_bytes()` for fixed-width integers: `natToLE k x` emits the
`k` little-endian bytes of `x % 2^(8k)`, exactly the truncating casts
(`x as u32` etc.) followed by `to_le_bytes`. -/

def natToLE : Nat → Nat → List Nat
  | 0, _ => []
  | k + 1, x => (x % 256) :: natToLE k (x / 256)

/-- Reads `k` little-endian bytes from the front of a buffer, returning the
decoded value and the remaining bytes (models `read_u8/u16/u32/u64`). -/
def readLE : Nat → List Nat → Option (Nat × List Nat)
  | 0, l => some (0, l)
  | _ + 1, [] => none
  | k + 1, b :: l =>
    match readLE k l with
    | none => none
    | some (v, rest) => some (b + 256 * v, rest)

/-! ## `agent/core/lib/telemetry/protocol/compact.rs`

`CompactMetricsRecord` with its bit allocator, field adders/getters and the
byte-level `serialize`/`deserialize` pair. `field_mapping:
HashMap<u16, (u16, u8)>` is an association list `(field_id, block_idx,
bit_offset)` in iteration order. -/

structure CompactMetricsRecord where
  request_id_hash : Nat
  timestamp : Nat
  bitpacked_data : List Nat
  field_mapping : List (Nat × Nat × Nat)
  deriving DecidableEq, Repr

namespace CompactMetricsRecord

/-- `HashMap::insert` on the association-list model: replace the value of an
existing key in place, else append the new pair. -/
def mapInsert (key : Nat) (v : Nat × Nat) :
    List (Nat × Nat × Nat) → List (Nat × Nat × Nat)
  | [] => [(key, v)]
  | (k, w) :: rest =>
    if k = key then (k, v) :: rest else (k, w) :: mapInsert key v rest

/-- `HashMap::get` on the association-list model. -/
def mapGet (key : Nat) : List (Nat × Nat × Nat) → Option (Nat × Nat)
  | [] => none
  | (k, w) :: rest => if k = key then some w else mapGet key rest

/-- The `for bit in (0..64).rev()` scan of `allocate_bits`: one past the
highest set bit of the tail block (`0` when no bit below 64 is set). -/
def highestSetBitScan (block : Nat) : Nat :=
  (List.range 64).foldl
    (fun acc bit => if block &&& (1 <<< bit) ≠ 0 then bit + 1 else acc) 0

/-- `CompactMetricsRecord::allocate_bits` (compact.rs:402-431). Returns
`((block_idx, bit_offset), updated_record)`. -/
def allocate_bits (r : CompactMetricsRecord) (bit_count : Nat) :
    (Nat × Nat) × CompactMetricsRecord :=
  if r.bitpacked_data = [] then
    ((0, 0), { r with bitpacked_data := [0] })
  else
    let last_block_idx := r.bitpacked_data.length - 1
    let last_block := r.bitpacked_data.getLastD 0
    let highest_bit := highestSetBitScan last_block
    if highest_bit + bit_count ≤ 64 then
      ((last_block_idx, highest_bit), r)
    else
      ((r.bitpacked_data.length, 0),
        { r with bitpacked_data := r.bitpacked_data ++ [0] })

/-- Sets bits of `value` (pre-masked by the caller) at `bit_offset` of block
`block_idx`: the `*block |= value << bit_offset` pattern of the adders. -/
def orIntoBlock (r : CompactMetricsRecord) (block_idx bit_offset value : Nat) :
    CompactMetricsRecord :=
  { r with
    bitpacked_data :=
      r.bitpacked_data.set block_idx
        ((r.bitpacked_data.getD block_idx 0) ||| (value <<< bit_offset)) }

/-- `CompactMetricsRecord::add_bool_field` (compact.rs:310-321). -/
def add_bool_field (r : CompactMetricsRecord) (field_id : Nat) (value : Bool) :
    CompactMetricsRecord :=
  let alloc := r.allocate_bits 1
  let block_idx := alloc.1.1
  let bit_offset := alloc.1.2
  let r1 := alloc.2
  let r2 := if value then r1.orIntoBlock block_idx bit_offset 1 else r1
  { r2 with field_mapping := mapInsert field_id (block_idx, bit_offset) r2.field_mapping }

/-- `CompactMetricsRecord::add_small_int_field` (compact.rs:324-334). -/
def add_small_int_field (r : CompactMetricsRecord) (field_id value : Nat) :
    CompactMetricsRecord :=
  let value := value &&& 0x0F
  let alloc := r.allocate_bits 4
  let r2 := alloc.2.orIntoBlock alloc.1.1 alloc.1.2 value
  { r2 with field_mapping := mapInsert field_id (alloc.1.1, alloc.1.2) r2.field_mapping }

/-- `CompactMetricsRecord::add_medium_int_field` (compact.rs:337-346). -/
def add_medium_int_field (r : CompactMetricsRecord) (field_id value : Nat) :
    CompactMetricsRecord :=
  let alloc := r.allocate_bits 8
  let r2 := alloc.2.orIntoBlock alloc.1.1 alloc.1.2 value
  { r2 with field_mapping := mapInsert field_id (alloc.1.1, alloc.1.2) r2.field_mapping }

/-- `CompactMetricsRecord::add_large_int_field` (compact.rs:349-358). -/
def add_large_int_field (r : CompactMetricsRecord) (field_id value : Nat) :
    CompactMetricsRecord :=
  let alloc := r.allocate_bits 16
  let r2 := alloc.2.orIntoBlock alloc.1.1 alloc.1.2 value
  { r2 with field_mapping := mapInsert field_id (alloc.1.1, alloc.1.2) r2.field_mapping }

/-- `CompactMetricsRecord::get_bool_field` (compact.rs:361-368). -/
def get_bool_field (r : CompactMetricsRecord) (field_id : Nat) : Option Bool :=
  match mapGet field_id r.field_mapping with
  | none => none
  | some (block_idx, bit_offset) =>
    let block := r.bitpacked_data.getD block_idx 0
    some (((block >>> bit_offset) &&& 1) ≠ 0)

/-- `CompactMetricsRecord::get_small_int_field` (compact.rs:371-378). -/
def get_small_int_field (r : CompactMetricsRecord) (field_id : Nat) : Option Nat :=
  match mapGet field_id r.field_mapping with
  | none => none
  | some (block_idx, bit_offset) =>
    some ((r.bitpacked_data.getD block_idx 0 >>> bit_offset) &&& 0x0F)

/-- One field-mapping entry as written by `serialize` (compact.rs:458-462):
`u16` field id LE, `u16` block index LE, then the raw `u8` bit offset. -/
def encodeMappingEntry (e : Nat × Nat × Nat) : List Nat :=
  natToLE 2 e.1 ++ natToLE 2 e.2.1 ++ [e.2.2 % 256]

/-- `CompactMetricsRecord::serialize` (compact.rs:434-465): request id hash
and timestamp as `u64` LE, then the block vector and field mapping, each
preceded by its length cast `as u32`. -/
def serialize (r : CompactMetricsRecord) : List Nat :=
  natToLE 8 r.request_id_hash ++
  natToLE 8 r.timestamp ++
  natToLE 4 r.bitpacked_data.length ++
  (r.bitpacked_data.map (natToLE 8)).flatten ++
  natToLE 4 r.field_mapping.length ++
  (r.field_mapping.map encodeMappingEntry).flatten

/-- The block-reading loop of `deserialize`: `data_len` `u64` reads. -/
def readBlocks : Nat → List Nat → Option (List Nat × List Nat)
  | 0, l => some ([], l)
  | n + 1, l =>
    match readLE 8 l with
    | none => none
    | some (b, rest) =>
      match readBlocks n rest with
      | none => none
      | some (bs, rest2) => some (b :: bs, rest2)

/-- The mapping-reading loop of `deserialize`: `mapping_len` iterations of
`u16` field id, `u16` block index, `u8` bit offset. -/
def readMappings : Nat → List Nat → Option (List (Nat × Nat × Nat) × List Nat)
  | 0, l => some ([], l)
  | n + 1, l =>
    match readLE 2 l with
    | none => none
    | some (fid, r1) =>
      match readLE 2 r1 with
      | none => none
      | some (bidx, r2) =>
        match readLE 1 r2 with
        | none => none
        | some (off, r3) =>
          match readMappings n r3 with
          | none => none
          | some (ms, rest) => some ((fid, bidx, off) :: ms, rest)

/-- `CompactMetricsRecord::deserialize` (compact.rs:468-504). `mapInsert` of
each parsed mapping entry into an initially empty map appends in read
order, so the rebuilt mapping list is accumulated directly. -/
def deserialize (bytes : List Nat) : Option CompactMetricsRecord :=
  if bytes.length < 20 then none
  else
    match readLE 8 bytes with
    | none => none
    | some (request_id_hash, r1) =>
      match readLE 8 r1 with
      | none => none
      | some (timestamp, r2) =>
        match readLE 4 r2 with
        | none => none
        | some (data_len, r3) =>
          match readBlocks data_len r3 with
          | none => none
          | some (bitpacked_data, r4) =>
            match readLE 4 r4 with
            | none => none
            | some (mapping_len, r5) =>
              match readMappings mapping_len r5 with
              | none => none
              | some (field_mapping, _) =>
                some ⟨request_id_hash, timestamp, bitpacked_data, field_mapping⟩

/-- Well-formedness induced by the Rust field types: `u64` hash, timestamp
and blocks, `u16` field ids and block indices, `u8` bit offsets. -/
def WF (r : CompactMetricsRecord) : Prop :=
  r.request_id_hash < 2 ^ 64 ∧ r.timestamp < 2 ^ 64 ∧
  (∀ b ∈ r.bitpacked_data, b < 2 ^ 64) ∧
  (∀ e ∈ r.field_mapping, e.1 < 2 ^ 16 ∧ e.2.1 < 2 ^ 16 ∧ e.2.2 < 2 ^ 8)

end CompactMetricsRecord

/-! ## `agent/core/lib/telemetry/protocol/registry.rs`

`FieldRegistry` maps field names (UTF-8 byte lists) to `u8` ids. The two
`HashMap`s are association lists in iteration order. `String::from_utf8_lossy`
is the identity on the byte lists at hand, which originate from Rust
`String`s and hence are valid UTF-8. -/

def PROTOCOL_FIELD_REGISTRY_VERSION : Nat := 1

/-- Association-list lookup (models `HashMap::get`). -/
def alookup {α β : Type} [DecidableEq α] (key : α) : List (α × β) → Option β
  | [] => none
  | (k, v) :: rest => if k = key then some v else alookup key rest

/-- Association-list insert (models `HashMap::insert`): replace in place or
append. -/
def ainsert {α β : Type} [DecidableEq α] (key : α) (v : β) :
    List (α × β) → List (α × β)
  | [] => [(key, v)]
  | (k, w) :: rest =>
    if k = key then (k, v) :: rest else (k, w) :: ainsert key v rest

structure FieldRegistry where
  name_to_id : List (List Nat × Nat)
  id_to_name : List (Nat × List Nat)
  next_id : Nat
  reserved_ids : List (List Nat × Nat)
  deriving DecidableEq, Repr

namespace FieldRegistry

/-- The nine reserved (name, id) pairs of `FieldRegistry::new`, as UTF-8
bytes: timestamp, request_id, memory_usage_mb, cpu_usage_percent,
duration_ms, error, function_name, function_version, region. -/
def reservedPairs : List (List Nat × Nat) :=
  [([116, 105, 109, 101, 115, 116, 97, 109, 112], 1),
   ([114, 101, 113, 117, 101, 115, 116, 95, 105, 100], 2),
   ([109, 101, 109, 111, 114, 121, 95, 117, 115, 97, 103, 101, 95, 109, 98], 3),
   ([99, 112, 117, 95, 117, 115, 97, 103, 101, 95, 112, 101, 114, 99, 101, 110, 116], 4),
   ([100, 117, 114, 97, 116, 105, 111, 110, 95, 109, 115], 5),
   ([101, 114, 114, 111, 114], 6),
   ([102, 117, 110, 99, 116, 105, 111, 110, 95, 110, 97, 109, 101], 7),
   ([102, 117, 110, 99, 116, 105, 111, 110, 95, 118, 101, 114, 115, 105, 111, 110], 8),
   ([114, 101, 103, 105, 111, 110], 9)]

/-- `FieldRegistry::reserve_id` (registry.rs:47-51). -/
def reserve_id (reg : FieldRegistry) (name : List Nat) (id : Nat) : FieldRegistry :=
  { reg with
    name_to_id := ainsert name id reg.name_to_id
    id_to_name := ainsert id name reg.id_to_name
    reserved_ids := ainsert name id reg.reserved_ids }

/-- `FieldRegistry::new` (registry.rs:25-45): empty maps, `next_id = 10`,
then the nine `reserve_id` calls. -/
def new : FieldRegistry :=
  reservedPairs.foldl (fun reg e => reg.reserve_id e.1 e.2) ⟨[], [], 10, []⟩

/-- `FieldRegistry::get_id_for_field` (registry.rs:53-63): id of a registered
name, `0` as fallback for unknown names. -/
def get_id_for_field (reg : FieldRegistry) (name : List Nat) : Nat :=
  match alookup name reg.name_to_id with
  | some id => id
  | none => 0

/-- `FieldRegistry::register_and_get_id_for_field` (registry.rs:65-88),
including the `wrapping_add` of `next_id` and the unused-id rescan when it
wraps below 10. -/
def register_and_get_id_for_field (reg : FieldRegistry) (name : List Nat) :
    Nat × FieldRegistry :=
  match alookup name reg.name_to_id with
  | some id => (id, reg)
  | none =>
    let id := reg.next_id
    let wrapped := (reg.next_id + 1) % 256
    let next :=
      if wrapped < 10 then
        match (List.range' 10 246).find? (fun i => (alookup i reg.id_to_name).isNone) with
        | some i => i
        | none => wrapped
      else wrapped
    (id, { reg with
            name_to_id := ainsert name id reg.name_to_id
            id_to_name := ainsert id name reg.id_to_name
            next_id := next })

/-- One registry entry as written by `serialize` (registry.rs:105-109): the
`u8` id, the name length `as u8` (truncating) and the raw name bytes. -/
def encodeRegistryEntry (e : List Nat × Nat) : List Nat :=
  e.2 % 256 :: e.1.length % 256 :: e.1

/-- `FieldRegistry::serialize` (registry.rs:95-112): `u32` version LE, `u16`
count LE (`len() as u16` truncates), then the entries. -/
def serialize (reg : FieldRegistry) : List Nat :=
  natToLE 4 PROTOCOL_FIELD_REGISTRY_VERSION ++
  natToLE 2 reg.name_to_id.length ++
  (reg.name_to_id.map encodeRegistryEntry).flatten

/-- The effect of one `deserialize` loop iteration on the registry being
rebuilt, for an already parsed entry `e = (name, id)` (registry.rs:154-158):
reserved names are skipped, others are inserted into both maps. -/
def regStep (reg : FieldRegistry) (e : List Nat × Nat) : FieldRegistry :=
  if (alookup e.1 reg.reserved_ids).isSome then reg
  else { reg with
          name_to_id := ainsert e.1 e.2 reg.name_to_id
          id_to_name := ainsert e.2 e.1 reg.id_to_name }

/-- One iteration of the `deserialize` read loop (registry.rs:138-159): the
bounds checks on `offset` become length checks on the remaining bytes, and
a non-reserved parsed entry is inserted into both maps. -/
def readRegistryEntry (reg : FieldRegistry) (l : List Nat) :
    Option (FieldRegistry × List Nat) :=
  match l with
  | id :: name_len :: rest =>
    if rest.length < name_len then none
    else
      let name := rest.take name_len
      let reg' :=
        if (alookup name reg.reserved_ids).isSome then reg
        else { reg with
                name_to_id := ainsert name id reg.name_to_id
                id_to_name := ainsert id name reg.id_to_name }
      some (reg', rest.drop name_len)
  | _ => none

/-- The `for _ in 0..count` loop of `deserialize`. -/
def readRegistryEntries : Nat → FieldRegistry → List Nat →
    Option (FieldRegistry × List Nat)
  | 0, reg, l => some (reg, l)
  | n + 1, reg, l =>
    match readRegistryEntry reg l with
    | none => none
    | some (reg', rest) => readRegistryEntries n reg' rest

/-- `FieldRegistry::deserialize` (registry.rs:115-169): length and version
checks, the entry loop starting from `Self::new()`, then the `next_id`
fixup from the maximum registered id. -/
def deserialize (data : List Nat) : Option FieldRegistry :=
  if data.length < 6 then none
  else
    match readLE 4 data with
    | none => none
    | some (version, r1) =>
      if version ≠ PROTOCOL_FIELD_REGISTRY_VERSION then none
      else
        match readLE 2 r1 with
        | none => none
        | some (count, r2) =>
          match readRegistryEntries count new r2 with
          | none => none
          | some (reg, _) =>
            let max_id := ((reg.name_to_id.map (·.2)).max?).getD 9
            let wrapped := (max_id + 1) % 256
            some { reg with next_id := if wrapped < 10 then 10 else wrapped }

/-- Well-formedness induced by the Rust types and `HashMap` semantics:
distinct name keys, `u8` ids, and the reserved pairs present exactly as
`new` installs them (every registry built through the public API satisfies
this). The two extra bounds — names of at most 255 bytes and fewer than
65536 entries — are the hypotheses of the corrected round-trip claim. -/
def WFnames (reg : FieldRegistry) : Prop :=
  (reg.name_to_id.map (·.1)).Nodup ∧
  (∀ e ∈ reg.name_to_id, e.2 < 256) ∧
  (∀ e ∈ reservedPairs, alookup e.1 reg.name_to_id = some e.2) ∧
  reg.reserved_ids = new.reserved_ids

end FieldRegistry

/-! ## `agent/core/lib/telemetry/protocol/binary.rs`

JSON values and `encode_value`. `serde_json::Value` is modelled with
strings and map keys as UTF-8 byte lists and object entries in iteration
order. The `Number` branch models the `as_i64` cases; the `as_f64` fallback
performs `f32`/`f64` arithmetic and is outside the embedding (none of the
claims touches it). -/

inductive JsonValue where
  | null : JsonValue
  | bool : Bool → JsonValue
  | int : Int → JsonValue
  | str : List Nat → JsonValue
  | arr : List JsonValue → JsonValue
  | obj : List (List Nat × JsonValue) → JsonValue

/-- Two's-complement little-endian bytes of a signed integer (models
`(i as iN).to_le_bytes()` for an `i` already in range). -/
def intToLE (k : Nat) (i : Int) : List Nat :=
  natToLE k (Int.toNat (i % (2 ^ (8 * k))))

/-- The string-encoding fragment shared by `Value::String` and object keys
(binary.rs:115-126 and 150-159): `String8` with a one-byte length for up to
255 bytes, else `String16` with a two-byte LE length (`len() as u16`). -/
def encodeStringBytes (s : List Nat) : List Nat :=
  if s.length ≤ 255 then 8 :: s.length :: s
  else 9 :: natToLE 2 s.length ++ s

mutual

/-- `encode_value` (binary.rs:81-187) appending to `buffer`, restated as the
emitted byte list. Type tags: Null 0, Bool 1, Int8 2, Int16 3, Int32 4,
Int64 5, String8 8, String16 9, List 10, Map 11. Arrays and objects longer
than 255 entries are truncated to their first 255 entries with count byte
255. -/
def encodeValue : JsonValue → List Nat
  | .null => [0]
  | .bool b => [1, if b then 1 else 0]
  | .int i =>
    if -128 ≤ i ∧ i ≤ 127 then 2 :: intToLE 1 i
    else if -32768 ≤ i ∧ i ≤ 32767 then 3 :: intToLE 2 i
    else if -2147483648 ≤ i ∧ i ≤ 2147483647 then 4 :: intToLE 4 i
    else 5 :: intToLE 8 i
  | .str s => encodeStringBytes s
  | .arr items =>
    if items.length ≤ 255 then 10 :: items.length :: encodeValueList items
    else 10 :: 255 :: encodeValueListN 255 items
  | .obj entries =>
    if entries.length ≤ 255 then 11 :: entries.length :: encodeEntryList entries
    else 11 :: 255 :: encodeEntryListN 255 entries

/-- The element loop of the short `Value::Array` branch (`for item in arr`). -/
def encodeValueList : List JsonValue → List Nat
  | [] => []
  | v :: rest => encodeValue v ++ encodeValueList rest

/-- The element loop of the long `Value::Array` branch
(`for item in arr.iter().take(255)`). -/
def encodeValueListN : Nat → List JsonValue → List Nat
  | _, [] => []
  | 0, _ :: _ => []
  | n + 1, v :: rest => encodeValue v ++ encodeValueListN n rest

/-- The key/value loop of the short `Value::Object` branch. -/
def encodeEntryList : List (List Nat × JsonValue) → List Nat
  | [] => []
  | (k, v) :: rest => encodeStringBytes k ++ encodeValue v ++ encodeEntryList rest

/-- The key/value loop of the long `Value::Object` branch
(`for (key, value) in obj.iter().take(255)`). -/
def encodeEntryListN : Nat → List (List Nat × JsonValue) → List Nat
  | _, [] => []
  | 0, _ :: _ => []
  | n + 1, (k, v) :: rest => encodeStringBytes k ++ encodeValue v ++ encodeEntryListN n rest

end

/-! ### `serialize_metrics_binary` (binary.rs:195-311)

The per-metric section (binary.rs:221-279) converts `memory_usage_mb` to
`f32` and scales `cpu_usage_percent` through `f64` arithmetic; that
construction is floating-point and is abstracted: the framing below takes
the finished metrics section bytes (`metrics_data`) and the metric count as
inputs. `flate2` zlib compression and `compute_crc32` live outside this
module and enter as function parameters. The code writes a provisional
flags word and patches `buffer[12..16]` before appending any payload, which
is represented by emitting the final flags word in place. -/

def PROTOCOL_MAGIC : List Nat := [80, 82, 66, 77]

def PROTOCOL_VERSION : Nat := 1

def PROTOCOL_MIN_COMPRESSION_SIZE : Nat := 1024

def serialize_metrics_binary (metrics_count : Nat) (metrics_data : List Nat)
    (compress : List Nat → List Nat) (use_error_correction : Bool)
    (crc32 : List Nat → Nat) : List Nat :=
  let flags0 : Nat := if use_error_correction then 2 else 0
  let use_compression := metrics_data.length > PROTOCOL_MIN_COMPRESSION_SIZE
  let flags := if use_compression then flags0 ||| 1 else flags0
  let header :=
    PROTOCOL_MAGIC ++ natToLE 4 PROTOCOL_VERSION ++
    natToLE 4 metrics_count ++ natToLE 4 flags
  let body :=
    if use_compression then
      let compressed := compress metrics_data
      natToLE 4 metrics_data.length ++ natToLE 4 compressed.length ++ compressed
    else metrics_data
  let buffer := header ++ body
  if use_error_correction then buffer ++ natToLE 4 (crc32 buffer) else buffer

/-! ## `agent/core/lib/transport/retry.rs`

`ship_with_retry` sleeps between attempts with
`retry_delay.mul_f64(jitter * attempt as f64)` where
`jitter = rand::random::<f64>() * 0.5 + 0.75` (retry.rs:65-71). Durations
and the drawn jitter are modelled over `ℚ`; the delay formula is exact in
the reals, so the rational model captures it faithfully. -/

/-- The jitter drawn at one retry, as a function of the uniform sample
`rand ∈ [0, 1)` (retry.rs:67). -/
def shipJitter (rand : ℚ) : ℚ := rand * (1 / 2) + 3 / 4

/-- The sleep before the retry following `attempt` (retry.rs:68): linear in
the attempt index, with no backoff factor and no cap. -/
def shipRetryDelay (retry_delay jitter : ℚ) (attempt : ℕ) : ℚ :=
  retry_delay * (jitter * attempt)

/-- The number of `client.post(...).send()` calls `ship_with_retry` makes
before returning, given the success/failure outcome of each attempt
(retry.rs:32-72): the `for attempt in 1..=max_attempts` loop returns early
on the first success. -/
def shipSendCount (outcomes : List Bool) (max_attempts : Nat) : Nat :=
  match ((outcomes.take max_attempts).findIdx? (· = true)) with
  | some i => i + 1
  | none => max_attempts

/-- The nominal backoff sequence the specification claims, with initial
delay `d`: `delay_1 = d`, `delay_{n+1} = min(delay_n * factor, max_delay)`.
Stated from the spec for comparison against `shipRetryDelay`. -/
def specBackoff (d factor max_delay : ℚ) : ℕ → ℚ
  | 0 => d
  | n + 1 => min (specBackoff d factor max_delay n * factor) max_delay

/-! ## `agent/core/lib/transport/buffer.rs`

`TelemetryBuffer` (buffer.rs:12-56): entries are abstracted to `Nat`
(`PoolPtr<MetricEntry>` handles are opaque to the buffer logic); the
`Mutex`/`AtomicUsize` state is explicit. The temp-file path plays no part
in `add_metric` and is omitted from the state. -/

structure TelemetryBuffer where
  buffer : List Nat
  batch_size : Nat
  metrics_count : Nat
  deriving DecidableEq, Repr

namespace TelemetryBuffer

/-- `TelemetryBuffer::new` (buffer.rs:20-35). -/
def new (batch_size : Nat) : TelemetryBuffer := ⟨[], batch_size, 0⟩

/-- `TelemetryBuffer::add_metric` (buffer.rs:43-56): bump the counter, push
the entry, and report whether the buffered length has reached
`batch_size`. -/
def add_metric (st : TelemetryBuffer) (entry : Nat) : Bool × TelemetryBuffer :=
  let st' := { st with
    metrics_count := st.metrics_count + 1
    buffer := st.buffer ++ [entry] }
  (st'.buffer.length ≥ st.batch_size, st')

/-- A whole sequence of `add_metric` calls, returning the final state. -/
def addAll (st : TelemetryBuffer) : List Nat → TelemetryBuffer
  | [] => st
  | e :: rest => addAll (st.add_metric e).2 rest

end TelemetryBuffer

/-! ## `agent/collectors/src/registry.rs`

`CollectorRegistry::initialize` (registry.rs:63-110). A collector is
abstracted to the data the loop inspects: the outcome of its
`initialize()` call and whether its configured frequency is `OnDemand`
(which decides the on-demand channel installation). The `collectors` map is
an association list keyed by collector id (UTF-8 bytes abstracted to
`Nat`). -/

structure CollectorInfo where
  initOk : Bool
  onDemand : Bool
  deriving DecidableEq, Repr

structure CollectorRegistry where
  collectors : List (Nat × CollectorInfo)
  on_demand_channels : List Nat
  inited : Bool
  deriving DecidableEq, Repr

namespace CollectorRegistry

/-- `CollectorRegistry::initialize` (registry.rs:63-110): early `Ok` when
already initialized; otherwise each collector's `initialize()` outcome is
only logged (an `Err` does not change the map), on-demand channels are set
up, the flag is set and `Ok` is returned. The result is the returned
`Result<()>` (always `ok`) together with the new registry state. -/
def runInitialize (reg : CollectorRegistry) : Option Unit × CollectorRegistry :=
  if reg.inited then (some (), reg)
  else
    let channels :=
      reg.collectors.foldl
        (fun acc e => if e.2.onDemand then acc ++ [e.1] else acc)
        reg.on_demand_channels
    (some (), { reg with on_demand_channels := channels, inited := true })

end CollectorRegistry

/-! ## `agent/core/lib/state/persistence.rs`

`StatePersistence<T>` over an explicit filesystem: an association list from
path to byte contents (a missing key is a missing file). The generic
`T: PersistentState` enters through parameters: `encode` for
`serde_json::to_string_pretty`, `decode` for `serde_json::from_str` (with
`none` for a deserialization failure), `validate` for the trait's
validation hook and `dflt` for `T::default()`. Directory creation always
succeeds and is a no-op in this model. -/

def aremove {β : Type} (key : String) : List (String × β) → List (String × β)
  | [] => []
  | (k, v) :: rest => if k = key then rest else (k, v) :: aremove key rest

structure StatePersistence where
  state_dir : String
  state_file : String
  backup_file : String
  deriving DecidableEq, Repr

namespace StatePersistence

def DEFAULT_STATE_DIR : String := "/tmp/lambda-extension-state"

def DEFAULT_STATE_FILE : String := "state.json"

def DEFAULT_BACKUP_FILE : String := "state.backup.json"

/-- `StatePersistence::new(None, None, None)` (persistence.rs:36-47). -/
def newDefault : StatePersistence :=
  ⟨DEFAULT_STATE_DIR, DEFAULT_STATE_FILE, DEFAULT_BACKUP_FILE⟩

/-- `StatePersistence::state_path` (persistence.rs:50-52). -/
def state_path (sp : StatePersistence) : String :=
  sp.state_dir ++ "/" ++ sp.state_file

/-- `StatePersistence::backup_path` (persistence.rs:55-57). -/
def backup_path (sp : StatePersistence) : String :=
  sp.state_dir ++ "/" ++ sp.backup_file

/-- The `format!("{}.tmp", state_path)` scratch path of `save`. -/
def temp_path (sp : StatePersistence) : String :=
  sp.state_path ++ ".tmp"

/-- `StatePersistence::load_from_file` (persistence.rs:104-121): missing
file, failed deserialization and failed validation all yield an error. -/
def load_from_file {T : Type} (decode : List Nat → Option T)
    (validate : T → Bool) (fs : List (String × List Nat)) (path : String) :
    Option T :=
  match alookup path fs with
  | none => none
  | some contents =>
    match decode contents with
    | none => none
    | some state => if validate state then some state else none

/-- `StatePersistence::save` (persistence.rs:124-156): copy the existing
primary over the backup, write the serialized state to `"<state>.tmp"`,
then rename the temporary onto the primary. -/
def save {T : Type} (encode : T → List Nat) (sp : StatePersistence)
    (fs : List (String × List Nat)) (state : T) : List (String × List Nat) :=
  let fs1 :=
    match alookup sp.state_path fs with
    | some contents => ainsert sp.backup_path contents fs
    | none => fs
  let fs2 := ainsert sp.temp_path (encode state) fs1
  ainsert sp.state_path (encode state) (aremove sp.temp_path fs2)

/-- `StatePersistence::load` (persistence.rs:69-101): primary first; on
failure the backup, whose recovered state is re-saved to the primary; when
both fail, `T::default()`. Returns the loaded state and the (possibly
re-written) filesystem. -/
def load {T : Type} (encode : T → List Nat) (decode : List Nat → Option T)
    (validate : T → Bool) (dflt : T) (sp : StatePersistence)
    (fs : List (String × List Nat)) : T × List (String × List Nat) :=
  match load_from_file decode validate fs sp.state_path with
  | some state => (state, fs)
  | none =>
    match load_from_file decode validate fs sp.backup_path with
    | none => (dflt, fs)
    | some state => (state, save encode sp fs state)

end StatePersistence

/-! ## `agent/core/lib/state/memory_pool.rs`

`MemoryPool` (memory_pool.rs:30-101): the raw buffer pointer is abstracted
to its base offset `0`; an allocation is the pair `(offset, aligned_size)`
describing the byte range `[offset, offset + aligned_size)` handed to the
caller. `usize` arithmetic wraps modulo `2^64` (`fetch_add` wraps by
definition; the additions follow release-build semantics). -/

def USIZE : Nat := 2 ^ 64

def DEFAULT_POOL_SIZE : Nat := 1024 * 1024 * 10

def MIN_POOL_SIZE : Nat := 1024

def ALIGNMENT : Nat := 16

structure MemoryPool where
  buffer_size : Nat
  next_free : Nat
  max_used : Nat
  deriving DecidableEq, Repr

namespace MemoryPool

/-- `MemoryPool::new` (memory_pool.rs:32-50) with the allocation itself
assumed to succeed: `buffer_size = size.max(MIN_POOL_SIZE)`. -/
def new (size : Nat) : MemoryPool := ⟨max size MIN_POOL_SIZE, 0, 0⟩

/-- `(size + ALIGNMENT - 1) & !(ALIGNMENT - 1)` (memory_pool.rs:55). -/
def alignUp (size : Nat) : Nat := ((size + 15) % USIZE) &&& (USIZE - 16)

/-- `MemoryPool::allocate` (memory_pool.rs:53-87): reserve by `fetch_add`,
fail — resetting `next_free` to 0 — when the range ends past
`buffer_size`, else record the max usage and return the range. -/
def allocate (p : MemoryPool) (size : Nat) :
    Option (Nat × Nat) × MemoryPool :=
  let aligned := alignUp size
  let offset := p.next_free
  let p1 := { p with next_free := (p.next_free + aligned) % USIZE }
  if (offset + aligned) % USIZE > p.buffer_size then
    (none, { p1 with next_free := 0 })
  else
    (some (offset, aligned),
     { p1 with max_used := max p1.max_used ((offset + aligned) % USIZE) })

/-- `MemoryPool::reset` (memory_pool.rs:90-92). -/
def reset (p : MemoryPool) : MemoryPool := { p with next_free := 0 }

/-- A sequence of `allocate` calls, collecting each call's result. -/
def allocateAll (p : MemoryPool) :
    List Nat → List (Option (Nat × Nat)) × MemoryPool
  | [] => ([], p)
  | size :: rest =>
    let step := allocate p size
    let tail := allocateAll step.2 rest
    (step.1 :: tail.1, tail.2)

/-- Disjointness of two allocated byte ranges `[off, off + len)`. -/
def RangesDisjoint (a b : Nat × Nat) : Prop :=
  a.1 + a.2 ≤ b.1 ∨ b.1 + b.2 ≤ a.1

end MemoryPool

/-! ## Helper lemmas: little-endian round trips -/

theorem natToLE_length (k x : Nat) : (natToLE k x).length = k := by
  induction k generalizing x with
  | zero => rfl
  | succ k ih => simp [natToLE, ih]

theorem natToLE_zero (k : Nat) : natToLE k 0 = List.replicate k 0 := by
  induction k with
  | zero => rfl
  | succ k ih => simp [natToLE, ih, List.replicate_succ]

theorem readLE_natToLE (k x : Nat) (rest : List Nat) :
    readLE k (natToLE k x ++ rest) = some (x % 2 ^ (8 * k), rest) := by
  induction k generalizing x with
  | zero => simp [readLE, natToLE, Nat.mod_one]
  | succ k ih =>
    have hpow : (2 : Nat) ^ (8 * (k + 1)) = 256 * 2 ^ (8 * k) := by
      rw [show 8 * (k + 1) = 8 * k + 8 by ring, pow_add]
      ring
    simp only [natToLE, List.cons_append, readLE, List.append_eq, ih, hpow,
      Nat.mod_mul]

theorem readLE_natToLE_of_lt (k x : Nat) (h : x < 2 ^ (8 * k)) (rest : List Nat) :
    readLE k (natToLE k x ++ rest) = some (x, rest) := by
  rw [readLE_natToLE, Nat.mod_eq_of_lt h]

theorem readLE_replicate_zero (k n : Nat) (h : k ≤ n) :
    readLE k (List.replicate n 0) = some (0, List.replicate (n - k) 0) := by
  induction k generalizing n with
  | zero => simp [readLE]
  | succ k ih =>
    match n, h with
    | m + 1, h =>
      have hm : k ≤ m := Nat.lt_succ_iff.mp h
      simp [List.replicate_succ, readLE, ih m hm]

theorem flatten_replicate_zero (n k : Nat) :
    (List.replicate n (List.replicate k (0 : Nat))).flatten =
      List.replicate (n * k) 0 := by
  induction n with
  | zero => simp
  | succ n ih =>
    simp [List.replicate_succ, ih, Nat.succ_mul, Nat.add_comm, ← List.replicate_add]

theorem readBlocks_natToLE (bs : List Nat) (rest : List Nat)
    (h : ∀ b ∈ bs, b < 2 ^ 64) :
    CompactMetricsRecord.readBlocks bs.length
      ((bs.map (natToLE 8)).flatten ++ rest) = some (bs, rest) := by
  induction bs with
  | nil => simp [CompactMetricsRecord.readBlocks]
  | cons b bs ih =>
    have hb : b < 2 ^ (8 * 8) := by simpa using h b (by simp)
    simp only [List.length_cons, List.map_cons, List.flatten_cons,
      List.append_assoc, CompactMetricsRecord.readBlocks,
      readLE_natToLE_of_lt 8 b hb, ih (fun x hx => h x (by simp [hx]))]

theorem readMappings_encode (es : List (Nat × Nat × Nat)) (rest : List Nat)
    (h : ∀ e ∈ es, e.1 < 2 ^ 16 ∧ e.2.1 < 2 ^ 16 ∧ e.2.2 < 2 ^ 8) :
    CompactMetricsRecord.readMappings es.length
      ((es.map CompactMetricsRecord.encodeMappingEntry).flatten ++ rest)
      = some (es, rest) := by
  induction es with
  | nil => simp [CompactMetricsRecord.readMappings]
  | cons e es ih =>
    obtain ⟨h1, h2, h3⟩ := h e (by simp)
    have hf : e.1 < 2 ^ (8 * 2) := by simpa using h1
    have hbx : e.2.1 < 2 ^ (8 * 2) := by simpa using h2
    have hoff : e.2.2 % 256 = e.2.2 := Nat.mod_eq_of_lt (by simpa using h3)
    have hread1 : ∀ l : List Nat,
        readLE 1 (e.2.2 % 256 :: l) = some (e.2.2, l) := by
      intro l
      simp [readLE, hoff]
    simp only [List.length_cons, List.map_cons, List.flatten_cons,
      CompactMetricsRecord.encodeMappingEntry, List.append_assoc,
      CompactMetricsRecord.readMappings,
      readLE_natToLE_of_lt 2 e.1 hf, List.cons_append, List.nil_append,
      readLE_natToLE_of_lt 2 e.2.1 hbx, hread1,
      ih (fun x hx => h x (by simp [hx]))]

theorem serialize_length_ge (r : CompactMetricsRecord) :
    20 ≤ r.serialize.length := by
  simp only [CompactMetricsRecord.serialize, List.length_append, natToLE_length]
  omega

/-! ## Claim C1 -/

/-- C1 (amended): for every well-formed `CompactMetricsRecord` whose block
vector has fewer than `2^32` entries (and whose field mapping does too —
automatic for a `HashMap` keyed by `u16`),
`deserialize (serialize r) = Ok r` bit-exactly: same request id hash,
timestamp, block vector and field mapping. -/
theorem claim_C1_serialize_roundtrip_bounded (r : CompactMetricsRecord)
    (hwf : r.WF) (hdlen : r.bitpacked_data.length < 2 ^ 32)
    (hmlen : r.field_mapping.length < 2 ^ 32) :
    CompactMetricsRecord.deserialize r.serialize = some r := by
  obtain ⟨hhash, hts, hblocks, hmap⟩ := hwf
  unfold CompactMetricsRecord.deserialize
  rw [if_neg (by have := serialize_length_ge r; omega)]
  conv_lhs => rw [CompactMetricsRecord.serialize]
  simp only [List.append_assoc]
  rw [readLE_natToLE_of_lt 8 r.request_id_hash (by simpa using hhash)]
  simp only []
  rw [readLE_natToLE_of_lt 8 r.timestamp (by simpa using hts)]
  simp only []
  rw [readLE_natToLE_of_lt 4 r.bitpacked_data.length (by simpa using hdlen)]
  simp only []
  rw [readBlocks_natToLE r.bitpacked_data _ hblocks]
  simp only []
  rw [readLE_natToLE_of_lt 4 r.field_mapping.length (by simpa using hmlen)]
  simp only []
  rw [← List.append_nil (List.map CompactMetricsRecord.encodeMappingEntry r.field_mapping).flatten,
    readMappings_encode r.field_mapping [] hmap]

/-- Witness for C1 at a concrete record. -/
theorem claim_C1_witness :
    CompactMetricsRecord.deserialize
      (CompactMetricsRecord.serialize ⟨1, 2, [3, 2 ^ 63], [(4, 0, 7), (5, 1, 0)]⟩)
      = some ⟨1, 2, [3, 2 ^ 63], [(4, 0, 7), (5, 1, 0)]⟩ :=
  claim_C1_serialize_roundtrip_bounded _
    (by refine ⟨by norm_num, by norm_num, ?_, ?_⟩ <;> · intro x hx; fin_cases hx <;> norm_num)
    (by norm_num) (by norm_num)

/-- Counterexample to C1 as stated (over *any* bit-block vector): a record
with `2^32` zero blocks serializes with length field `2^32 % 2^32 = 0`
(`bitpacked_data.len() as u32`, compact.rs:451), so deserialization
succeeds but returns the empty record instead of the original. -/
theorem claim_C1_counterexample :
    CompactMetricsRecord.deserialize
        (CompactMetricsRecord.serialize ⟨0, 0, List.replicate (2 ^ 32) 0, []⟩)
      = some ⟨0, 0, [], []⟩ ∧
    (⟨0, 0, List.replicate (2 ^ 32) 0, []⟩ : CompactMetricsRecord) ≠
      ⟨0, 0, [], []⟩ := by
  constructor
  · have hser : CompactMetricsRecord.serialize ⟨0, 0, List.replicate (2 ^ 32) 0, []⟩
        = List.replicate (24 + 2 ^ 32 * 8) 0 := by
      show natToLE 8 0 ++ natToLE 8 0 ++ natToLE 4 (List.replicate (2 ^ 32) (0 : Nat)).length ++
          ((List.replicate (2 ^ 32) (0 : Nat)).map (natToLE 8)).flatten ++
          natToLE 4 (List.length []) ++ List.flatten [] = _
      rw [List.length_replicate, show natToLE 4 (2 ^ 32) = List.replicate 4 0 from by decide]
      simp only [List.map_replicate, natToLE_zero, List.length_nil,
        flatten_replicate_zero, List.flatten_nil, List.append_nil,
        List.append_assoc, ← List.replicate_add]
      congr 1
    rw [hser]
    unfold CompactMetricsRecord.deserialize
    rw [if_neg (by rw [List.length_replicate]; norm_num)]
    rw [readLE_replicate_zero 8 _ (by norm_num)]
    simp only []
    rw [readLE_replicate_zero 8 _ (by norm_num)]
    simp only []
    rw [readLE_replicate_zero 4 _ (by norm_num)]
    simp only [CompactMetricsRecord.readBlocks]
    rw [readLE_replicate_zero 4 _ (by norm_num)]
    simp only [CompactMetricsRecord.readMappings]
  · intro h
    have hlen : (List.replicate (2 ^ 32) (0 : Nat)).length = ([] : List Nat).length :=
      congrArg (fun r : CompactMetricsRecord => r.bitpacked_data.length) h
    rw [List.length_replicate, List.length_nil] at hlen
    exact absurd hlen (by norm_num)

/-! ## Claim C2 -/

/-- C2 (code bug): the allocator scans for the highest *set* bit, not the
highest *allocated* bit, so storing `false` in field 1 leaves the scan at
0 and field 2 is allocated the very same bit `(block 0, offset 0)`:
the two mapping entries coincide, and reading field 1 back yields `true`
although `false` was stored. -/
theorem claim_C2_overlap_bug :
    CompactMetricsRecord.mapGet 1
      (CompactMetricsRecord.add_bool_field
        (CompactMetricsRecord.add_bool_field ⟨0, 0, [], []⟩ 1 false) 2
        true).field_mapping = some (0, 0) ∧
    CompactMetricsRecord.mapGet 2
      (CompactMetricsRecord.add_bool_field
        (CompactMetricsRecord.add_bool_field ⟨0, 0, [], []⟩ 1 false) 2
        true).field_mapping = some (0, 0) ∧
    CompactMetricsRecord.get_bool_field
      (CompactMetricsRecord.add_bool_field
        (CompactMetricsRecord.add_bool_field ⟨0, 0, [], []⟩ 1 false) 2
        true) 1 = some true := by
  decide

/-! ## Helper lemmas: association lists -/

theorem alookup_ainsert_self {α β : Type} [DecidableEq α] (k : α) (v : β)
    (l : List (α × β)) : alookup k (ainsert k v l) = some v := by
  induction l with
  | nil => simp [ainsert, alookup]
  | cons e rest ih =>
    by_cases h : e.1 = k
    · simp [ainsert, alookup, h]
    · simp [ainsert, alookup, h, ih]

theorem alookup_ainsert_ne {α β : Type} [DecidableEq α] {k k' : α} (h : k' ≠ k)
    (v : β) (l : List (α × β)) : alookup k (ainsert k' v l) = alookup k l := by
  induction l with
  | nil => simp [ainsert, alookup, h]
  | cons e rest ih =>
    obtain ⟨a, b⟩ := e
    by_cases he : a = k'
    · subst he
      simp [ainsert, alookup, h]
    · by_cases hek : a = k
      · subst hek
        simp [ainsert, alookup, he]
      · simp [ainsert, alookup, he, hek, ih]

theorem alookup_mem {α β : Type} [DecidableEq α] {k : α} {v : β}
    {l : List (α × β)} (h : alookup k l = some v) : (k, v) ∈ l := by
  induction l with
  | nil => simp [alookup] at h
  | cons e rest ih =>
    obtain ⟨a, b⟩ := e
    by_cases he : a = k
    · subst he
      rw [alookup, if_pos rfl] at h
      injection h with hb
      subst hb
      exact List.mem_cons_self _ _
    · rw [alookup, if_neg he] at h
      exact List.mem_cons_of_mem _ (ih h)

/-! ## Claim C3 -/

theorem readRegistryEntry_encode (reg : FieldRegistry) (e : List Nat × Nat)
    (rest : List Nat) (hid : e.2 < 256) (hlen : e.1.length ≤ 255) :
    FieldRegistry.readRegistryEntry reg (FieldRegistry.encodeRegistryEntry e ++ rest)
      = some (FieldRegistry.regStep reg e, rest) := by
  have h2 : e.2 % 256 = e.2 := Nat.mod_eq_of_lt hid
  have hl : e.1.length % 256 = e.1.length := Nat.mod_eq_of_lt (by omega)
  unfold FieldRegistry.readRegistryEntry FieldRegistry.encodeRegistryEntry
    FieldRegistry.regStep
  simp only [List.cons_append, h2, hl]
  rw [if_neg (by simp)]
  rw [List.take_left, List.drop_left]

theorem readRegistryEntries_encode (es : List (List Nat × Nat))
    (reg : FieldRegistry) (rest : List Nat)
    (h : ∀ e ∈ es, e.2 < 256 ∧ e.1.length ≤ 255) :
    FieldRegistry.readRegistryEntries es.length reg
        ((es.map FieldRegistry.encodeRegistryEntry).flatten ++ rest)
      = some (es.foldl FieldRegistry.regStep reg, rest) := by
  induction es generalizing reg with
  | nil => simp [FieldRegistry.readRegistryEntries]
  | cons e es ih =>
    obtain ⟨h1, h2⟩ := h e (by simp)
    simp only [List.length_cons, List.map_cons, List.flatten_cons,
      List.append_assoc, FieldRegistry.readRegistryEntries,
      readRegistryEntry_encode reg e _ h1 h2, List.foldl_cons]
    exact ih _ (fun x hx => h x (by simp [hx]))

theorem foldl_regStep_reserved_ids (es : List (List Nat × Nat))
    (acc : FieldRegistry) :
    (es.foldl FieldRegistry.regStep acc).reserved_ids = acc.reserved_ids := by
  induction es generalizing acc with
  | nil => rfl
  | cons e es ih =>
    rw [List.foldl_cons, ih]
    unfold FieldRegistry.regStep
    by_cases h : (alookup e.1 acc.reserved_ids).isSome <;> simp [h]

theorem foldl_regStep_lookup_not_mem (s : List Nat) (es : List (List Nat × Nat))
    (acc : FieldRegistry) (hnm : s ∉ es.map (·.1)) :
    alookup s (es.foldl FieldRegistry.regStep acc).name_to_id
      = alookup s acc.name_to_id := by
  induction es generalizing acc with
  | nil => rfl
  | cons e es ih =>
    simp only [List.map_cons, List.mem_cons, not_or] at hnm
    rw [List.foldl_cons, ih _ hnm.2]
    unfold FieldRegistry.regStep
    by_cases h : (alookup e.1 acc.reserved_ids).isSome
    · simp [h]
    · simp [h, alookup_ainsert_ne (fun he => hnm.1 he.symm)]

theorem foldl_regStep_lookup_reserved (s : List Nat) (rid : Nat)
    (es : List (List Nat × Nat)) (acc : FieldRegistry)
    (hres : alookup s acc.reserved_ids = some rid) :
    alookup s (es.foldl FieldRegistry.regStep acc).name_to_id
      = alookup s acc.name_to_id := by
  induction es generalizing acc with
  | nil => rfl
  | cons e es ih =>
    rw [List.foldl_cons]
    by_cases h : (alookup e.1 acc.reserved_ids).isSome
    · rw [show FieldRegistry.regStep acc e = acc from by unfold FieldRegistry.regStep; simp [h]]
      exact ih acc hres
    · have hne : e.1 ≠ s := by
        intro heq
        rw [heq, hres] at h
        simp at h
      have hstep : FieldRegistry.regStep acc e =
          { acc with
            name_to_id := ainsert e.1 e.2 acc.name_to_id
            id_to_name := ainsert e.2 e.1 acc.id_to_name } := by
        unfold FieldRegistry.regStep
        simp [h]
      rw [hstep, ih _ (by simpa using hres)]
      exact alookup_ainsert_ne hne _ _

theorem foldl_regStep_lookup_mem (s : List Nat) (i : Nat)
    (es : List (List Nat × Nat)) (acc : FieldRegistry)
    (hmem : (s, i) ∈ es) (hnd : (es.map (·.1)).Nodup)
    (hnres : alookup s acc.reserved_ids = none) :
    alookup s (es.foldl FieldRegistry.regStep acc).name_to_id = some i := by
  induction es generalizing acc with
  | nil => simp at hmem
  | cons e es ih =>
    simp only [List.map_cons, List.nodup_cons] at hnd
    rcases List.mem_cons.mp hmem with heq | htl
    · subst heq
      rw [List.foldl_cons]
      have hstep : FieldRegistry.regStep acc (s, i) =
          { acc with
            name_to_id := ainsert s i acc.name_to_id
            id_to_name := ainsert i s acc.id_to_name } := by
        unfold FieldRegistry.regStep
        simp [hnres]
      rw [hstep, foldl_regStep_lookup_not_mem s es _ hnd.1]
      exact alookup_ainsert_self s i _
    · have hne : e.1 ≠ s := by
        intro heq
        exact hnd.1 (heq ▸ List.mem_map_of_mem (·.1) htl)
      rw [List.foldl_cons]
      refine ih _ htl hnd.2 ?_
      unfold FieldRegistry.regStep
      by_cases h : (alookup e.1 acc.reserved_ids).isSome <;> simp [h, hnres]

theorem serialize_registry_length_ge (reg : FieldRegistry) :
    6 ≤ reg.serialize.length := by
  simp only [FieldRegistry.serialize, List.length_append, natToLE_length]
  omega

/-- The nine `reserve_id` calls of `new` populate `name_to_id` and
`reserved_ids` identically. -/
theorem new_name_to_id_eq : FieldRegistry.new.name_to_id = FieldRegistry.reservedPairs := by
  decide

theorem new_reserved_ids_eq : FieldRegistry.new.reserved_ids = FieldRegistry.reservedPairs := by
  decide

/-- C3 (amended): for every API-reachable `FieldRegistry` whose registered
names are each at most 255 bytes and which holds fewer than `2^16` entries,
`deserialize (serialize d)` succeeds and maps every registered name —
reserved or dynamic — to the same id as `d`. -/
theorem claim_C3_registry_roundtrip (reg : FieldRegistry) (s : List Nat)
    (hwf : reg.WFnames)
    (hname : ∀ e ∈ reg.name_to_id, e.1.length ≤ 255)
    (hcount : reg.name_to_id.length < 2 ^ 16)
    (hs : (alookup s reg.name_to_id).isSome) :
    (FieldRegistry.deserialize reg.serialize).map
        (fun d => d.get_id_for_field s)
      = some (reg.get_id_for_field s) := by
  obtain ⟨hnd, hid, hres, hrids⟩ := hwf
  unfold FieldRegistry.deserialize
  rw [if_neg (by have := serialize_registry_length_ge reg; omega)]
  conv_lhs =>
    rw [FieldRegistry.serialize]
  simp only [List.append_assoc]
  rw [readLE_natToLE_of_lt 4 PROTOCOL_FIELD_REGISTRY_VERSION
    (by norm_num [PROTOCOL_FIELD_REGISTRY_VERSION])]
  simp only []
  rw [if_neg (by norm_num)]
  rw [readLE_natToLE_of_lt 2 reg.name_to_id.length (by simpa using hcount)]
  simp only []
  rw [← List.append_nil (List.map FieldRegistry.encodeRegistryEntry reg.name_to_id).flatten,
    readRegistryEntries_encode reg.name_to_id FieldRegistry.new []
      (fun e he => ⟨hid e he, hname e he⟩)]
  simp only [Option.map_some']
  obtain ⟨i, hi⟩ := Option.isSome_iff_exists.mp hs
  have hfold : alookup s (reg.name_to_id.foldl FieldRegistry.regStep FieldRegistry.new).name_to_id
      = some i := by
    match hcase : alookup s FieldRegistry.new.reserved_ids with
    | some rid =>
      have hpair : (s, rid) ∈ FieldRegistry.reservedPairs :=
        alookup_mem (by rw [← new_reserved_ids_eq]; exact hcase)
      have hregs : alookup s reg.name_to_id = some rid := hres (s, rid) hpair
      have hir : i = rid := by rw [hi] at hregs; injection hregs
      subst hir
      rw [foldl_regStep_lookup_reserved s i reg.name_to_id FieldRegistry.new hcase,
        new_name_to_id_eq, ← new_reserved_ids_eq]
      exact hcase
    | none =>
      exact foldl_regStep_lookup_mem s i reg.name_to_id FieldRegistry.new
        (alookup_mem hi) hnd hcase
  show some (match alookup s (reg.name_to_id.foldl FieldRegistry.regStep
        FieldRegistry.new).name_to_id with
      | some id => id
      | none => 0) = some (reg.get_id_for_field s)
  rw [hfold]
  unfold FieldRegistry.get_id_for_field
  rw [hi]

/-- Witness for C3: a registry with one dynamically registered two-byte name
`"ab"` round-trips and preserves that name's id. -/
theorem claim_C3_witness :
    (FieldRegistry.deserialize (FieldRegistry.serialize
        (FieldRegistry.register_and_get_id_for_field FieldRegistry.new [97, 98]).2)).map
      (fun d => d.get_id_for_field [97, 98])
    = some ((FieldRegistry.register_and_get_id_for_field
        FieldRegistry.new [97, 98]).2.get_id_for_field [97, 98]) :=
  claim_C3_registry_roundtrip _ _
    ⟨by decide, by decide, by decide, by decide⟩ (by decide) (by decide) (by decide)

set_option maxRecDepth 8000 in
/-- Counterexample to C3 as stated (arbitrary registered strings): a
256-byte name serializes with length byte `256 % 256 = 0`
(`name.len() as u8`, registry.rs:107), so deserialization misparses the
entry as an empty name and the rebuilt registry maps the original name to
the fallback id 0 instead of its registered id 10. -/
theorem claim_C3_counterexample :
    (FieldRegistry.deserialize (FieldRegistry.serialize
        (FieldRegistry.register_and_get_id_for_field FieldRegistry.new
          (List.replicate 256 97)).2)).map
      (fun d => d.get_id_for_field (List.replicate 256 97)) = some 0 ∧
    (FieldRegistry.register_and_get_id_for_field FieldRegistry.new
        (List.replicate 256 97)).2.get_id_for_field (List.replicate 256 97) = 10 := by
  decide

/-! ## Claim C4 -/

theorem encodeValueListN_eq_take (n : Nat) (l : List JsonValue) :
    encodeValueListN n l = encodeValueList (l.take n) := by
  induction l generalizing n with
  | nil => cases n <;> rfl
  | cons v rest ih =>
    cases n with
    | zero => rfl
    | succ n => simp [encodeValueListN, encodeValueList, ih]

/-- C4 (amended): a JSON array with more than 255 elements is encoded as a
List with count byte 255 holding only the first 255 encoded elements — and
nothing more: the output is byte-identical to encoding the truncated array,
so the truncation leaves no record anywhere (there is no batch-metadata
`truncated` flag in the code). -/
theorem claim_C4_truncation_silent (l : List JsonValue) (h : 255 < l.length) :
    encodeValue (JsonValue.arr l) = 10 :: 255 :: encodeValueListN 255 l ∧
    encodeValue (JsonValue.arr l) = encodeValue (JsonValue.arr (l.take 255)) := by
  have htake : (l.take 255).length = 255 := by
    rw [List.length_take]
    omega
  constructor
  · rw [encodeValue]
    rw [if_neg (by omega)]
  · rw [encodeValue, if_neg (by omega)]
    conv_rhs => rw [encodeValue]
    rw [if_pos (by omega), htake, encodeValueListN_eq_take]

/-- Witness for C4 at an array of 256 nulls. -/
theorem claim_C4_witness :
    255 < (List.replicate 256 JsonValue.null).length ∧
    (encodeValue (JsonValue.arr (List.replicate 256 JsonValue.null))
        = 10 :: 255 :: encodeValueListN 255 (List.replicate 256 JsonValue.null) ∧
      encodeValue (JsonValue.arr (List.replicate 256 JsonValue.null))
        = encodeValue (JsonValue.arr ((List.replicate 256 JsonValue.null).take 255))) :=
  ⟨by rw [List.length_replicate]; norm_num,
   claim_C4_truncation_silent _ (by rw [List.length_replicate]; norm_num)⟩

/-- Counterexample to C4 as stated: the encoder's entire output for a
256-element array equals its output for the corresponding 255-element
array, so no metadata — nothing in the produced bytes or anywhere else —
records `truncated: true`. -/
theorem claim_C4_counterexample :
    encodeValue (JsonValue.arr (List.replicate 256 JsonValue.null))
      = encodeValue (JsonValue.arr (List.replicate 255 JsonValue.null)) := by
  rw [encodeValue, if_neg (by rw [List.length_replicate]; norm_num)]
  conv_rhs => rw [encodeValue]
  rw [if_pos (by rw [List.length_replicate]), List.length_replicate,
    encodeValueListN_eq_take,
    show (List.replicate 256 JsonValue.null).take 255
      = List.replicate 255 JsonValue.null from by
        rw [List.take_replicate]
        norm_num]

/-! ## Claim C5 -/

/-- C5 (confirmed): iff the metrics payload (the bytes after the 16-byte
header) exceeds 1024 bytes, the emitted flags word has bit 0 set and the
header is followed by `uncompressed_size(4)`, `compressed_size(4)` and the
compressed bytes; otherwise bit 0 is clear and the raw payload follows the
header. The boundary is strict (`>`): 1024 bytes stay uncompressed, 1025
are compressed. -/
theorem claim_C5_compression_threshold (count : Nat) (data : List Nat)
    (compress : List Nat → List Nat) (uec : Bool) (crc : List Nat → Nat) :
    (1024 < data.length →
      serialize_metrics_binary count data compress uec crc
        = (let buf := PROTOCOL_MAGIC ++ natToLE 4 PROTOCOL_VERSION ++
              natToLE 4 count ++ natToLE 4 ((if uec then 2 else 0) ||| 1) ++
              (natToLE 4 data.length ++ natToLE 4 (compress data).length ++
                compress data);
            if uec then buf ++ natToLE 4 (crc buf) else buf)) ∧
    (data.length ≤ 1024 →
      serialize_metrics_binary count data compress uec crc
        = (let buf := PROTOCOL_MAGIC ++ natToLE 4 PROTOCOL_VERSION ++
              natToLE 4 count ++ natToLE 4 (if uec then 2 else 0) ++ data;
            if uec then buf ++ natToLE 4 (crc buf) else buf)) ∧
    (((if uec then (2 : Nat) else 0) ||| 1) &&& 1 = 1 ∧
      ((if uec then (2 : Nat) else 0)) &&& 1 = 0) := by
  refine ⟨?_, ?_, ?_⟩
  · intro h
    have hc : data.length > PROTOCOL_MIN_COMPRESSION_SIZE := h
    simp only [serialize_metrics_binary, if_pos hc, List.append_assoc]
  · intro h
    have hc : ¬ data.length > PROTOCOL_MIN_COMPRESSION_SIZE := by
      unfold PROTOCOL_MIN_COMPRESSION_SIZE
      omega
    simp only [serialize_metrics_binary, if_neg hc, List.append_assoc]
  · cases uec <;> exact ⟨by decide, by decide⟩

/-- Witness for C5: at 1025 payload bytes the output is the compressed
layout; at exactly 1024 bytes it is the raw layout with flags 0. -/
theorem claim_C5_witness :
    (serialize_metrics_binary 3 (List.replicate 1025 0) (fun _ => [7]) false
        (fun _ => 0)
      = PROTOCOL_MAGIC ++ natToLE 4 PROTOCOL_VERSION ++ natToLE 4 3 ++
        natToLE 4 1 ++
        (natToLE 4 (List.replicate 1025 (0 : Nat)).length ++ natToLE 4 1 ++ [7])) ∧
    (serialize_metrics_binary 3 (List.replicate 1024 0) (fun _ => [7]) false
        (fun _ => 0)
      = PROTOCOL_MAGIC ++ natToLE 4 PROTOCOL_VERSION ++ natToLE 4 3 ++
        natToLE 4 0 ++ List.replicate 1024 0) :=
  ⟨(claim_C5_compression_threshold 3 (List.replicate 1025 0) (fun _ => [7])
      false (fun _ => 0)).1 (by rw [List.length_replicate]; norm_num),
   (claim_C5_compression_threshold 3 (List.replicate 1024 0) (fun _ => [7])
      false (fun _ => 0)).2.1 (by rw [List.length_replicate])⟩

/-! ## Claim C6 -/

/-- C6 (code bug): the sleep before the retry after `attempt` is
`retry_delay * (jitter * attempt)` — linear in the attempt index, with no
backoff factor and no `max_delay` cap. With `retry_delay = 1`s and the
jitter sample `rand = 1/2` (jitter exactly 1), the observed delays are
1, 2, 3, 4 seconds, and no exponential-with-cap recurrence
`delay_{n+1} = min(delay_n * factor, max_delay)` produces them, although
the code comments itself "Exponential backoff with jitter". -/
theorem claim_C6_backoff_not_exponential :
    shipJitter (1 / 2) = 1 ∧
    (shipRetryDelay 1 1 1 = 1 ∧ shipRetryDelay 1 1 2 = 2 ∧
      shipRetryDelay 1 1 3 = 3 ∧ shipRetryDelay 1 1 4 = 4) ∧
    ¬ ∃ factor max_delay : ℚ,
        specBackoff 1 factor max_delay 1 = shipRetryDelay 1 1 2 ∧
        specBackoff 1 factor max_delay 2 = shipRetryDelay 1 1 3 ∧
        specBackoff 1 factor max_delay 3 = shipRetryDelay 1 1 4 := by
  refine ⟨by norm_num [shipJitter], ⟨?_, ?_, ?_, ?_⟩, ?_⟩
  · norm_num [shipRetryDelay]
  · norm_num [shipRetryDelay]
  · norm_num [shipRetryDelay]
  · norm_num [shipRetryDelay]
  rintro ⟨f, cap, h1, h2, h3⟩
  have e1 : specBackoff 1 f cap 1 = min (1 * f) cap := rfl
  have e2 : specBackoff 1 f cap 2 = min (specBackoff 1 f cap 1 * f) cap := rfl
  have e3 : specBackoff 1 f cap 3 = min (specBackoff 1 f cap 2 * f) cap := rfl
  have s2 : shipRetryDelay 1 1 2 = 2 := by norm_num [shipRetryDelay]
  have s3 : shipRetryDelay 1 1 3 = 3 := by norm_num [shipRetryDelay]
  have s4 : shipRetryDelay 1 1 4 = 4 := by norm_num [shipRetryDelay]
  rw [e1, s2, one_mul] at h1
  rw [e2, e1, one_mul, h1, s3] at h2
  rw [e3, e2, e1, one_mul, h1, h2, s4] at h3
  rcases min_eq_iff.mp h2 with ⟨h2f, _⟩ | ⟨hcap, _⟩
  · have hlef : min f cap ≤ f := min_le_left f cap
    rw [h1] at hlef
    have hf : f = 3 / 2 := by linarith
    rw [hf] at hlef
    linarith
  · have hlec : min (3 * f) cap ≤ cap := min_le_right _ _
    rw [h3, hcap] at hlec
    linarith

/-! ## Claim C7 -/

theorem addAll_spec (st : TelemetryBuffer) (es : List Nat) :
    (TelemetryBuffer.addAll st es).buffer = st.buffer ++ es ∧
    (TelemetryBuffer.addAll st es).metrics_count = st.metrics_count + es.length ∧
    (TelemetryBuffer.addAll st es).batch_size = st.batch_size := by
  induction es generalizing st with
  | nil => simp [TelemetryBuffer.addAll]
  | cons e rest ih =>
    obtain ⟨h1, h2, h3⟩ := ih { st with
      metrics_count := st.metrics_count + 1
      buffer := st.buffer ++ [e] }
    refine ⟨?_, ?_, ?_⟩
    · simp [TelemetryBuffer.addAll, TelemetryBuffer.add_metric, h1]
    · simp [TelemetryBuffer.addAll, TelemetryBuffer.add_metric, h2]
      omega
    · simp [TelemetryBuffer.addAll, TelemetryBuffer.add_metric, h3]

/-- C7 (amended): `add_metric` never evicts and enforces no capacity: after
any sequence of adds every entry is retained in arrival order (so the
staged count equals the number of adds and can exceed `batch_size`), the
counter counts every add, and each call returns whether the staged length
has reached the flush threshold `batch_size`. -/
theorem claim_C7_add_metric_retains_all (bs : Nat) (es : List Nat) :
    (TelemetryBuffer.addAll (TelemetryBuffer.new bs) es).buffer = es ∧
    (TelemetryBuffer.addAll (TelemetryBuffer.new bs) es).metrics_count = es.length ∧
    ∀ (st : TelemetryBuffer) (e : Nat),
      st.add_metric e
        = (decide (st.buffer.length + 1 ≥ st.batch_size),
           { st with
              buffer := st.buffer ++ [e]
              metrics_count := st.metrics_count + 1 }) := by
  obtain ⟨h1, h2, _⟩ := addAll_spec (TelemetryBuffer.new bs) es
  refine ⟨by simpa [TelemetryBuffer.new] using h1,
          by simpa [TelemetryBuffer.new] using h2, ?_⟩
  intro st e
  simp [TelemetryBuffer.add_metric]

/-- Counterexample to C7 as stated: with `batch_size = 1`, three
`add_metric` calls leave 3 staged entries — more than the capacity (1, or
even the doubled pre-allocation 2) — and no entry was evicted. -/
theorem claim_C7_counterexample :
    (TelemetryBuffer.addAll (TelemetryBuffer.new 1) [5, 6, 7]).buffer = [5, 6, 7] ∧
    (TelemetryBuffer.addAll (TelemetryBuffer.new 1) [5, 6, 7]).buffer.length = 3 ∧
    (TelemetryBuffer.new 1).batch_size = 1 := by
  decide

/-! ## Claim C8 -/

/-- C8 (amended): `CollectorRegistry::initialize` returns `Ok` regardless of
individual collector failures, and the collector table is left exactly as
it was: a collector whose `initialize()` fails is *not* removed (the error
is only logged). -/
theorem claim_C8_init_keeps_collectors (reg : CollectorRegistry) :
    (CollectorRegistry.runInitialize reg).1 = some () ∧
    (CollectorRegistry.runInitialize reg).2.collectors = reg.collectors := by
  unfold CollectorRegistry.runInitialize
  by_cases h : reg.inited <;> simp [h]

/-- Counterexample to C8 as stated: a registry holding a single collector
whose `initialize()` fails still holds that collector after
`initialize()`, which nevertheless returns `Ok`. -/
theorem claim_C8_counterexample :
    (CollectorRegistry.runInitialize ⟨[(1, ⟨false, false⟩)], [], false⟩).1 = some () ∧
    (CollectorRegistry.runInitialize ⟨[(1, ⟨false, false⟩)], [], false⟩).2.collectors
      = [(1, ⟨false, false⟩)] := by
  decide

/-! ## Claim C9 -/

theorem alookup_aremove_ne {β : Type} {k k' : String} (h : k' ≠ k)
    (l : List (String × β)) : alookup k (aremove k' l) = alookup k l := by
  induction l with
  | nil => rfl
  | cons e rest ih =>
    obtain ⟨a, b⟩ := e
    by_cases he : a = k'
    · subst he
      simp [aremove, alookup, h]
    · by_cases hek : a = k
      · subst hek
        simp [aremove, alookup, he]
      · simp [aremove, alookup, he, hek, ih]

theorem save_lookup_state {T : Type} (encode : T → List Nat)
    (sp : StatePersistence) (fs : List (String × List Nat)) (t : T) :
    alookup sp.state_path (StatePersistence.save encode sp fs t)
      = some (encode t) := by
  unfold StatePersistence.save
  rcases h : alookup sp.state_path fs with _ | c <;>
    simp [h, alookup_ainsert_self]

theorem save_lookup_backup {T : Type} (encode : T → List Nat)
    (sp : StatePersistence) (fs : List (String × List Nat)) (t : T)
    (c : List Nat) (hps : alookup sp.state_path fs = some c)
    (hsb : sp.state_path ≠ sp.backup_path)
    (htb : sp.temp_path ≠ sp.backup_path) :
    alookup sp.backup_path (StatePersistence.save encode sp fs t) = some c := by
  unfold StatePersistence.save
  rw [hps]
  simp only []
  rw [alookup_ainsert_ne hsb, alookup_aremove_ne htb, alookup_ainsert_ne htb,
    alookup_ainsert_self]

/-- C9 (amended): after `save(s)`, `load()` returns `s` and leaves the
filesystem untouched. But `save` copies the *previous* primary into the
backup before writing, so after `save(s0); save(s)` and a corruption of the
primary, `load()` recovers and re-promotes the previously saved state `s0`
from the backup — not the last saved state `s`. -/
theorem claim_C9_save_load_backup (T : Type) (encode : T → List Nat)
    (decode : List Nat → Option T) (validate : T → Bool) (dflt : T)
    (fs : List (String × List Nat)) (s0 s : T) (corrupt : List Nat)
    (hrt : ∀ t, decode (encode t) = some t)
    (hv : ∀ t, validate t = true)
    (hcor : decode corrupt = none) :
    (StatePersistence.load encode decode validate dflt StatePersistence.newDefault
        (StatePersistence.save encode StatePersistence.newDefault fs s)
      = (s, StatePersistence.save encode StatePersistence.newDefault fs s)) ∧
    ((StatePersistence.load encode decode validate dflt StatePersistence.newDefault
        (ainsert StatePersistence.newDefault.state_path corrupt
          (StatePersistence.save encode StatePersistence.newDefault
            (StatePersistence.save encode StatePersistence.newDefault fs s0) s))).1
      = s0 ∧
      alookup StatePersistence.newDefault.state_path
        (StatePersistence.load encode decode validate dflt StatePersistence.newDefault
          (ainsert StatePersistence.newDefault.state_path corrupt
            (StatePersistence.save encode StatePersistence.newDefault
              (StatePersistence.save encode StatePersistence.newDefault fs s0) s))).2
      = some (encode s0)) := by
  have hsb : StatePersistence.newDefault.state_path
      ≠ StatePersistence.newDefault.backup_path := by decide
  have htb : StatePersistence.newDefault.temp_path
      ≠ StatePersistence.newDefault.backup_path := by decide
  constructor
  · unfold StatePersistence.load
    have h1 : StatePersistence.load_from_file decode validate
        (StatePersistence.save encode StatePersistence.newDefault fs s)
        StatePersistence.newDefault.state_path = some s := by
      unfold StatePersistence.load_from_file
      rw [save_lookup_state]
      simp only []
      rw [hrt s]
      simp [hv]
    rw [h1]
  · have hp3 : alookup StatePersistence.newDefault.state_path
        (ainsert StatePersistence.newDefault.state_path corrupt
          (StatePersistence.save encode StatePersistence.newDefault
            (StatePersistence.save encode StatePersistence.newDefault fs s0) s))
        = some corrupt := alookup_ainsert_self _ _ _
    have hb3 : alookup StatePersistence.newDefault.backup_path
        (ainsert StatePersistence.newDefault.state_path corrupt
          (StatePersistence.save encode StatePersistence.newDefault
            (StatePersistence.save encode StatePersistence.newDefault fs s0) s))
        = some (encode s0) := by
      rw [alookup_ainsert_ne hsb]
      exact save_lookup_backup encode _ _ s (encode s0)
        (save_lookup_state encode _ fs s0) hsb htb
    have hpf : StatePersistence.load_from_file decode validate
        (ainsert StatePersistence.newDefault.state_path corrupt
          (StatePersistence.save encode StatePersistence.newDefault
            (StatePersistence.save encode StatePersistence.newDefault fs s0) s))
        StatePersistence.newDefault.state_path = none := by
      unfold StatePersistence.load_from_file
      rw [hp3]
      simp only []
      rw [hcor]
    have hbf : StatePersistence.load_from_file decode validate
        (ainsert StatePersistence.newDefault.state_path corrupt
          (StatePersistence.save encode StatePersistence.newDefault
            (StatePersistence.save encode StatePersistence.newDefault fs s0) s))
        StatePersistence.newDefault.backup_path = some s0 := by
      unfold StatePersistence.load_from_file
      rw [hb3]
      simp only []
      rw [hrt s0]
      simp [hv]
    unfold StatePersistence.load
    rw [hpf, hbf]
    exact ⟨rfl, save_lookup_state encode _ _ s0⟩

/-- Witness for C9 with `T = Nat`, `encode n = [n]`, a fresh filesystem,
states `s0 = 5`, `s = 6` and corrupting bytes `[7, 7]`. -/
theorem claim_C9_witness :
    (StatePersistence.load (fun n => [n])
        (fun l => match l with | [n] => some n | _ => none)
        (fun _ => true) 0 StatePersistence.newDefault
        (StatePersistence.save (fun (n : Nat) => [n]) StatePersistence.newDefault [] 6)
      = (6, StatePersistence.save (fun (n : Nat) => [n]) StatePersistence.newDefault [] 6)) ∧
    ((StatePersistence.load (fun n => [n])
        (fun l => match l with | [n] => some n | _ => none)
        (fun _ => true) 0 StatePersistence.newDefault
        (ainsert StatePersistence.newDefault.state_path [7, 7]
          (StatePersistence.save (fun (n : Nat) => [n]) StatePersistence.newDefault
            (StatePersistence.save (fun (n : Nat) => [n]) StatePersistence.newDefault [] 5) 6))).1
      = 5 ∧
      alookup StatePersistence.newDefault.state_path
        (StatePersistence.load (fun n => [n])
          (fun l => match l with | [n] => some n | _ => none)
          (fun _ => true) 0 StatePersistence.newDefault
          (ainsert StatePersistence.newDefault.state_path [7, 7]
            (StatePersistence.save (fun (n : Nat) => [n]) StatePersistence.newDefault
              (StatePersistence.save (fun (n : Nat) => [n]) StatePersistence.newDefault [] 5) 6))).2
      = some [5]) :=
  claim_C9_save_load_backup Nat (fun n => [n])
    (fun l => match l with | [n] => some n | _ => none)
    (fun _ => true) 0 [] 5 6 [7, 7] (fun _ => rfl) (fun _ => rfl) rfl

/-- Counterexample to C9 as stated: on a fresh filesystem, `save(5)` leaves
no backup (there was no primary to copy); corrupting the primary then makes
`load()` return the default state `0`, not the last saved state `5`. -/
theorem claim_C9_counterexample :
    (StatePersistence.load (fun (n : Nat) => [n])
        (fun l => match l with | [n] => some n | _ => none)
        (fun _ => true) 0 StatePersistence.newDefault
        (ainsert StatePersistence.newDefault.state_path [7, 7]
          (StatePersistence.save (fun (n : Nat) => [n])
            StatePersistence.newDefault [] 5))).1 = 0 ∧
    (0 : Nat) ≠ 5 := by
  constructor
  · decide
  · decide

/-! ## Claim C10 -/

theorem alignUp_le (s : Nat) : MemoryPool.alignUp s ≤ s + 15 :=
  le_trans Nat.and_le_left (Nat.mod_le _ _)

theorem allocate_success (p : MemoryPool) (s : Nat)
    (hbs : p.buffer_size < 2 ^ 62) (hnf : p.next_free ≤ p.buffer_size)
    (hs : s ≤ p.buffer_size) (hsome : (p.allocate s).1.isSome) :
    p.allocate s
      = (some (p.next_free, MemoryPool.alignUp s),
         ⟨p.buffer_size, p.next_free + MemoryPool.alignUp s,
          max p.max_used (p.next_free + MemoryPool.alignUp s)⟩) ∧
    p.next_free + MemoryPool.alignUp s ≤ p.buffer_size := by
  have h62 : (2 : Nat) ^ 62 = 4611686018427387904 := by norm_num
  have h64 : USIZE = 18446744073709551616 := by norm_num [USIZE]
  have ha : MemoryPool.alignUp s ≤ s + 15 := alignUp_le s
  have hlt : p.next_free + MemoryPool.alignUp s < USIZE := by omega
  have hmod : (p.next_free + MemoryPool.alignUp s) % USIZE
      = p.next_free + MemoryPool.alignUp s := Nat.mod_eq_of_lt hlt
  by_cases hc : (p.next_free + MemoryPool.alignUp s) % USIZE > p.buffer_size
  · exfalso
    unfold MemoryPool.allocate at hsome
    rw [if_pos hc] at hsome
    simp at hsome
  · constructor
    · unfold MemoryPool.allocate
      rw [if_neg hc, hmod]
    · rw [hmod] at hc
      omega

theorem allocateAll_spec (sizes : List Nat) (p : MemoryPool)
    (hbs : p.buffer_size < 2 ^ 62) (hnf : p.next_free ≤ p.buffer_size)
    (hsz : ∀ s ∈ sizes, s ≤ p.buffer_size)
    (hall : ∀ r ∈ (MemoryPool.allocateAll p sizes).1, r.isSome) :
    (MemoryPool.allocateAll p sizes).1.Pairwise
      (fun a b => ∀ ra rb, a = some ra → b = some rb →
        MemoryPool.RangesDisjoint ra rb) ∧
    (∀ r ∈ (MemoryPool.allocateAll p sizes).1, ∀ rg, r = some rg →
      p.next_free ≤ rg.1 ∧
      rg.1 + rg.2 ≤ (MemoryPool.allocateAll p sizes).2.next_free) ∧
    p.next_free ≤ (MemoryPool.allocateAll p sizes).2.next_free ∧
    (MemoryPool.allocateAll p sizes).2.next_free ≤ p.buffer_size ∧
    (MemoryPool.allocateAll p sizes).2.buffer_size = p.buffer_size := by
  induction sizes generalizing p with
  | nil =>
    refine ⟨by simp [MemoryPool.allocateAll], ?_, le_refl _, hnf, rfl⟩
    intro r hr
    simp [MemoryPool.allocateAll] at hr
  | cons s rest ih =>
    have hhead : ((p.allocate s).1).isSome := by
      refine hall (p.allocate s).1 ?_
      simp [MemoryPool.allocateAll]
    obtain ⟨hstep, hfit⟩ := allocate_success p s hbs hnf (hsz s (by simp)) hhead
    have hres : MemoryPool.allocateAll p (s :: rest)
        = (some (p.next_free, MemoryPool.alignUp s) ::
            (MemoryPool.allocateAll
              ⟨p.buffer_size, p.next_free + MemoryPool.alignUp s,
               max p.max_used (p.next_free + MemoryPool.alignUp s)⟩ rest).1,
           (MemoryPool.allocateAll
              ⟨p.buffer_size, p.next_free + MemoryPool.alignUp s,
               max p.max_used (p.next_free + MemoryPool.alignUp s)⟩ rest).2) := by
      simp [MemoryPool.allocateAll, hstep]
    obtain ⟨ihpw, ihrange, ihmono, ihle, ihbsz⟩ :=
      ih ⟨p.buffer_size, p.next_free + MemoryPool.alignUp s,
          max p.max_used (p.next_free + MemoryPool.alignUp s)⟩
        hbs hfit (fun x hx => hsz x (by simp [hx]))
        (by
          intro r hr
          refine hall r ?_
          rw [hres]
          exact List.mem_cons_of_mem _ hr)
    rw [hres]
    refine ⟨?_, ?_, ?_, ihle, ihbsz⟩
    · refine List.Pairwise.cons ?_ ihpw
      intro b hb ra rb hra hrb
      obtain ⟨hb1, _⟩ := ihrange b hb rb hrb
      left
      have hra2 : ra = (p.next_free, MemoryPool.alignUp s) := by
        injection hra.symm
      rw [hra2]
      exact hb1
    · intro r hr rg hrg
      rcases List.mem_cons.mp hr with hhd | htl
      · have : some rg = some (p.next_free, MemoryPool.alignUp s) := by
          rw [← hrg, hhd]
        have hrge : rg = (p.next_free, MemoryPool.alignUp s) := by
          injection this
        rw [hrge]
        exact ⟨le_refl _, ihmono⟩
      · obtain ⟨h1, h2⟩ := ihrange r htl rg hrg
        exact ⟨le_trans (Nat.le_add_right _ _) h1, h2⟩
    · exact le_trans (Nat.le_add_right _ _) ihmono

/-- C10 (amended): a misfitting `allocate` returns a distinguishable error
without growing the pool — but it also stores 0 into `next_free`
(memory_pool.rs:63), so later allocations may reuse ranges still held by
live allocations. As long as every `allocate` in a run succeeds (no
exhaustion/reset), the bump allocator hands out pairwise disjoint byte
ranges. -/
theorem claim_C10_pool_allocation :
    (∀ (p : MemoryPool) (s : Nat),
        p.buffer_size < (p.next_free + MemoryPool.alignUp s) % USIZE →
        ((p.allocate s).1 = none ∧
          (p.allocate s).2.buffer_size = p.buffer_size ∧
          (p.allocate s).2.next_free = 0)) ∧
    (∀ (p : MemoryPool) (sizes : List Nat),
        p.buffer_size < 2 ^ 62 → p.next_free ≤ p.buffer_size →
        (∀ s ∈ sizes, s ≤ p.buffer_size) →
        (∀ r ∈ (MemoryPool.allocateAll p sizes).1, r.isSome) →
        (MemoryPool.allocateAll p sizes).1.Pairwise
          (fun a b => ∀ ra rb, a = some ra → b = some rb →
            MemoryPool.RangesDisjoint ra rb)) := by
  constructor
  · intro p s h
    unfold MemoryPool.allocate
    rw [if_pos h]
    exact ⟨rfl, rfl, rfl⟩
  · intro p sizes hbs hnf hsz hall
    exact (allocateAll_spec sizes p hbs hnf hsz hall).1

/-- Witness for C10: a 1 KiB pool rejects a 2 KiB request without growing,
and the successful run `[16, 32]` yields disjoint ranges. -/
theorem claim_C10_witness :
    ((MemoryPool.new 1024).allocate 2048).1 = none ∧
    ((MemoryPool.new 1024).allocate 2048).2.buffer_size
      = (MemoryPool.new 1024).buffer_size ∧
    (MemoryPool.allocateAll (MemoryPool.new 1024) [16, 32]).1.Pairwise
      (fun a b => ∀ ra rb, a = some ra → b = some rb →
        MemoryPool.RangesDisjoint ra rb) :=
  ⟨(claim_C10_pool_allocation.1 (MemoryPool.new 1024) 2048 (by decide)).1,
   (claim_C10_pool_allocation.1 (MemoryPool.new 1024) 2048 (by decide)).2.1,
   claim_C10_pool_allocation.2 (MemoryPool.new 1024) [16, 32] (by decide)
     (by decide) (by decide) (by decide)⟩

/-- Counterexample to C10 as stated: fill a 1024-byte pool, fail one
allocation (which resets `next_free` to 0), and the next allocation is
handed bytes `[0, 16)` — inside the still-live first allocation
`[0, 1024)`. -/
theorem claim_C10_counterexample :
    ((MemoryPool.new 1024).allocate 1024).1 = some (0, 1024) ∧
    (((MemoryPool.new 1024).allocate 1024).2.allocate 16).1 = none ∧
    ((((MemoryPool.new 1024).allocate 1024).2.allocate 16).2.allocate 16).1
      = some (0, 16) ∧
    ¬ MemoryPool.RangesDisjoint (0, 1024) (0, 16) := by
  refine ⟨by decide, by decide, by decide, ?_⟩
  unfold MemoryPool.RangesDisjoint
  simp
